import Mathlib

/-!
Verification development for the `geode` crate: zero-runtime-cost
heterogeneous lists with dynamic-dispatch traversal cursors.

The embedding models:
* the sequence data shape generated by `custom_list!` (`List`/`End` cells,
  src/lib.rs lines 284-336 and the invocation at lines 448-462) as the
  inductive `CList`;
* the `Cons` trait implementations generated by `custom_list!`
  (src/lib.rs lines 369-407) as `CList.cons` / `CList.rCons`;
* the `StaticIter` trait (src/lib.rs lines 168-278): the required
  `try_for_each*` methods (implemented in the repository only for `End`,
  src/lib.rs lines 409-428; the nonempty-cell case is modelled from the
  spec, section 4.6) and the provided default methods `for_each*`,
  `try_fold*`, `fold*`, which are translated directly from the source;
* the traversal capability (`Iteratee` / `IterateeMut`, src/lib.rs lines
  24-46; no implementor exists in the repository, so `head_rest` is
  modelled from the spec contract, section 4.1/4.2);
* the cursors `Iter` and `IterMut` (src/iterators.rs) with their `next`
  (lines 78-105), `fork_shared` (lines 71-76) and the `From<IterMut>`
  conversion (lines 107-112).

`FnMut` closures are embedded as state-passing functions `T → σ → ...`
where `σ` is the closure's captured environment; Rust's `Infallible`
error type is embedded as Lean's `Empty`.
-/

/-- The cell shape generated by `custom_list!` (src/lib.rs lines 303-315,
invocation at lines 448-462), specialised to a homogeneous item type `T`:
`End` is the terminator struct, `List head rest` is the
`List { head, rest }` cell. -/
inductive CList (T : Type) where
  | End : CList T
  | Cell (head : T) (rest : CList T) : CList T
deriving DecidableEq

namespace CList

/-- The items held by a sequence, in construction order (head first). -/
def items {T : Type} : CList T → List T
  | .End => []
  | .Cell h r => h :: r.items

/-- Builds a `CList` from a Lean list, head first. -/
def ofList {T : Type} : List T → CList T
  | [] => .End
  | x :: xs => .Cell x (ofList xs)

/-- `Cons::cons` as generated by `custom_list!`: both the `End` impl
(src/lib.rs lines 372-377) and the `List` impl (lines 395-400) return
`List { head, rest: self }`. -/
def cons {T : Type} (self : CList T) (head : T) : CList T :=
  .Cell head self

/-- `Cons::r_cons` as generated by `custom_list!`: the `End` impl
(src/lib.rs lines 378-383) returns `List { head: tail, rest: self }`;
the `List` impl (lines 401-406) returns
`List { head: self.head, rest: self.rest.r_cons(tail) }`. -/
def rCons {T : Type} : CList T → T → CList T
  | .End, tail => .Cell tail .End
  | .Cell h r, tail => .Cell h (rCons r tail)

/-- `StaticIter::try_for_each` (consuming). The `End` case is the
repository implementation (src/lib.rs lines 410-415: `Ok(())` without
invoking the visitor). Modelled from the spec, section 4.6, for the
nonempty cell case (`StaticIter` for `List` is a TODO in src/lib.rs
line 17): visit items in position order, short-circuiting on first
failure. The visitor is an `FnMut` closure with captured state `σ`. -/
def tryForEach {T σ E : Type} : CList T → (T → σ → Except E σ) → σ → Except E σ
  | .End, _, s => .ok s
  | .Cell h r, f, s =>
    match f h s with
    | .error e => .error e
    | .ok s2 => tryForEach r f s2

/-- `StaticIter::try_for_each_ref`. The `End` case is the repository
implementation (src/lib.rs lines 416-421); the nonempty case is modelled
from the spec, section 4.6. Shared references are embedded by value. -/
def tryForEachRef {T σ E : Type} : CList T → (T → σ → Except E σ) → σ → Except E σ
  | .End, _, s => .ok s
  | .Cell h r, f, s =>
    match f h s with
    | .error e => .error e
    | .ok s2 => tryForEachRef r f s2

/-- `StaticIter::try_for_each_mut`. The `End` case is the repository
implementation (src/lib.rs lines 422-427); the nonempty case is modelled
from the spec, section 4.6. The visitor receives `&mut T`, embedded as
returning the (possibly replaced) item value next to its new closure
state; the result carries the mutated sequence. -/
def tryForEachMut {T σ E : Type} :
    CList T → (T → σ → Except E (T × σ)) → σ → Except E (CList T × σ)
  | .End, _, s => .ok (.End, s)
  | .Cell h r, f, s =>
    match f h s with
    | .error e => .error e
    | .ok (h2, s2) =>
      match tryForEachMut r f s2 with
      | .error e => .error e
      | .ok (r2, s3) => .ok (.Cell h2 r2, s3)

/-- Ghost-instrumented variant of `tryForEach` that additionally records
the list of items the visitor was invoked on; its `Except` component
agrees with `tryForEach` (lemma `tryForEachVisits_sound`). -/
def tryForEachVisits {T σ E : Type} :
    CList T → (T → σ → Except E σ) → σ → List T × Except E σ
  | .End, _, s => ([], .ok s)
  | .Cell h r, f, s =>
    match f h s with
    | .error e => ([h], .error e)
    | .ok s2 =>
      let p := tryForEachVisits r f s2
      (h :: p.1, p.2)

/-- Ghost-instrumented variant of `tryForEachMut` recording the items the
visitor was invoked on. -/
def tryForEachMutVisits {T σ E : Type} :
    CList T → (T → σ → Except E (T × σ)) → σ → List T × Except E (CList T × σ)
  | .End, _, s => ([], .ok (.End, s))
  | .Cell h r, f, s =>
    match f h s with
    | .error e => ([h], .error e)
    | .ok (h2, s2) =>
      let p := tryForEachMutVisits r f s2
      match p.2 with
      | .error e => (h :: p.1, .error e)
      | .ok (r2, s3) => (h :: p.1, .ok (.Cell h2 r2, s3))

/-- `StaticIter::for_each` (src/lib.rs lines 178-185): wraps the visitor
in `Ok::<_, Infallible>` and `.unwrap()`s the `try_for_each` result.
`Infallible` is `Empty`; the `unwrap` of the impossible `Err` branch is
`Empty.elim`. The returned value is the visitor's final closure state. -/
def forEach {T σ : Type} (l : CList T) (onEach : T → σ → σ) (s : σ) : σ :=
  match tryForEach l (fun item st => (.ok (onEach item st) : Except Empty σ)) s with
  | .ok s2 => s2
  | .error e => e.elim

/-- `StaticIter::for_each_ref` (src/lib.rs lines 186-189). -/
def forEachRef {T σ : Type} (l : CList T) (onEach : T → σ → σ) (s : σ) : σ :=
  match tryForEachRef l (fun item st => (.ok (onEach item st) : Except Empty σ)) s with
  | .ok s2 => s2
  | .error e => e.elim

/-- `StaticIter::for_each_mut` (src/lib.rs lines 190-193). -/
def forEachMut {T σ : Type} (l : CList T) (onEach : T → σ → T × σ) (s : σ) :
    CList T × σ :=
  match tryForEachMut l (fun item st => (.ok (onEach item st) : Except Empty (T × σ))) s with
  | .ok p => p
  | .error e => e.elim

/-- `StaticIter::try_fold` (src/lib.rs lines 195-210): the accumulator
lives in a `ManuallyDrop` cell that the visitor closure reads, folds and
writes back, propagating the visitor's error with `?`; on success the
final cell value is returned. The cell is exactly the `FnMut` state `σ`
of `tryForEach` specialised to the aggregate type `A`. -/
def tryFold {T A E : Type} (l : CList T) (initial : A) (onFold : A → T → Except E A) :
    Except E A :=
  tryForEach l (fun item aggregate => onFold aggregate item) initial

/-- `StaticIter::try_fold_ref` (src/lib.rs lines 212-227). -/
def tryFoldRef {T A E : Type} (l : CList T) (initial : A) (onFold : A → T → Except E A) :
    Except E A :=
  tryForEachRef l (fun item aggregate => onFold aggregate item) initial

/-- `StaticIter::try_fold_mut` (src/lib.rs lines 229-244). The folder
receives the aggregate and `&mut` item, embedded as returning the new
aggregate next to the (possibly replaced) item value. -/
def tryFoldMut {T A E : Type} (l : CList T) (initial : A)
    (onFold : A → T → Except E (A × T)) : Except E (CList T × A) :=
  tryForEachMut l
    (fun item aggregate =>
      match onFold aggregate item with
      | .error e => .error e
      | .ok (a2, item2) => .ok (item2, a2))
    initial

/-- `StaticIter::fold` (src/lib.rs lines 246-255): `try_fold` with the
folder wrapped in `Ok::<_, Infallible>`, then `.unwrap()`. -/
def fold {T A : Type} (l : CList T) (initial : A) (onFold : A → T → A) : A :=
  match tryFold l initial (fun a item => (.ok (onFold a item) : Except Empty A)) with
  | .ok a => a
  | .error e => e.elim

/-- `StaticIter::fold_ref` (src/lib.rs lines 257-266). -/
def foldRef {T A : Type} (l : CList T) (initial : A) (onFold : A → T → A) : A :=
  match tryFoldRef l initial (fun a item => (.ok (onFold a item) : Except Empty A)) with
  | .ok a => a
  | .error e => e.elim

/-- `StaticIter::fold_mut` (src/lib.rs lines 268-277). -/
def foldMut {T A : Type} (l : CList T) (initial : A) (onFold : A → T → A × T) :
    CList T × A :=
  match tryFoldMut l initial (fun a item => (.ok (onFold a item) : Except Empty (A × T))) with
  | .ok p => p
  | .error e => e.elim

end CList

/-- Modelled from the spec: `Iteratee::head_rest` (declared at
src/lib.rs line 26; no implementor is present in the repository — concrete
cells are external collaborators, spec section 6). Per the contract of
spec section 4.1 it returns none exactly at the terminal position and
otherwise the head item plus the strictly shorter remainder. -/
def head_rest {T : Type} : CList T → Option T × CList T
  | .End => (none, .End)
  | .Cell h r => (some h, r)

/-- Modelled from the spec: `IterateeMut::head_rest_mut` (declared at
src/lib.rs line 42; no implementor in the repository). Same positional
semantics as `head_rest` (spec section 4.2), exclusive references
embedded by value. -/
def head_rest_mut {T : Type} : CList T → Option T × CList T
  | .End => (none, .End)
  | .Cell h r => (some h, r)

/-- Modelled from the spec: `IterateeMut::as_iteratee` (declared at
src/lib.rs line 45): borrows the same instance as a shared `Iteratee`,
i.e. a shared capability denoting the same current position
(spec section 4.2, `as_shared`). -/
def as_iteratee {T : Type} (l : CList T) : CList T := l

/-- The shared cursor `Iter` (src/iterators.rs lines 31-34): wraps one
erased shared-capability reference, "the remaining suffix". -/
structure Iter (T : Type) where
  iteratee : CList T

/-- The exclusive cursor `IterMut` (src/iterators.rs lines 50-53). -/
structure IterMut (T : Type) where
  iteratee : CList T

namespace Iter

/-- `Iter::new` (src/iterators.rs lines 39-44). -/
def new {T : Type} (iteratee : CList T) : Iter T :=
  ⟨iteratee⟩

/-- `Iterator::next` for `Iter` (src/iterators.rs lines 81-85): call
`head_rest`, store the remainder, yield the head. -/
def next {T : Type} (c : Iter T) : Option T × Iter T :=
  let hr := head_rest c.iteratee
  (hr.1, ⟨hr.2⟩)

/-- The cursor state after `n` calls to `next`. -/
def advanceN {T : Type} (c : Iter T) : Nat → Iter T
  | 0 => c
  | k + 1 => advanceN (next c).2 k

/-- `Iterator::size_hint` for `Iter`: the `Iterator` impl at
src/iterators.rs lines 78-86 overrides only `next`, so Rust's provided
default `size_hint`, which returns `(0, None)` unconditionally, is used. -/
def size_hint {T : Type} (_c : Iter T) : Nat × Option Nat :=
  (0, none)

/-- Collecting items by repeated `next` calls (each step is one `next`:
a cursor wrapping `.Cell h r` steps to `(some h, ⟨r⟩)` and one wrapping
`.End` reports `none`); the recursion is on the wrapped remainder. -/
def collect {T : Type} : CList T → List T
  | .End => []
  | .Cell h r => h :: collect r

/-- The items a cursor yields until exhaustion, via `collect`. -/
def toList {T : Type} (c : Iter T) : List T :=
  collect c.iteratee

end Iter

/-- Modelled from the spec: the `size_hint` of a conforming traversal
capability (spec section 4.1: lower and optional upper bound on the
remaining item count; exact for a finite cell chain of known length). -/
def iteratee_size_hint {T : Type} (l : CList T) : Nat × Option Nat :=
  ((CList.items l).length, some (CList.items l).length)

namespace IterMut

/-- `IterMut::new` (src/iterators.rs lines 58-63). -/
def new {T : Type} (iteratee : CList T) : IterMut T :=
  ⟨iteratee⟩

/-- `Iterator::next` for `IterMut` (src/iterators.rs lines 91-104): read
the slot, call `head_rest_mut` on the value read, write the returned
remainder back into the slot, yield the head. -/
def next {T : Type} (c : IterMut T) : Option T × IterMut T :=
  let hr := head_rest_mut c.iteratee
  (hr.1, ⟨hr.2⟩)

/-- `Iterator::next` for `IterMut` with a fallible capability call,
embedding the unwinding path of src/iterators.rs lines 91-104: the slot
is read (`ptr::read` leaves the stored bits in place), then
`head_rest_mut` runs; if it unwinds (`.error`), the write at line 101
never executes, so the slot still holds its previous, valid value and the
abort propagates unchanged; if it returns, the remainder is written into
the slot and the head is yielded. -/
def nextFallible {T E : Type} (hrm : CList T → Except E (Option T × CList T))
    (c : IterMut T) : Except E (Option T) × IterMut T :=
  match hrm c.iteratee with
  | .error e => (.error e, c)
  | .ok hr => (.ok hr.1, ⟨hr.2⟩)

/-- The cursor state after `n` calls to `next`. -/
def advanceN {T : Type} (c : IterMut T) : Nat → IterMut T
  | 0 => c
  | k + 1 => advanceN (next c).2 k

/-- `IterMut::fork_shared` (src/iterators.rs lines 71-76): takes `&self`
and returns `Iter::new(self.iteratee.as_iteratee())`. -/
def fork_shared {T : Type} (c : IterMut T) : Iter T :=
  Iter.new (as_iteratee c.iteratee)

end IterMut

/-- `From<IterMut> for Iter` (src/iterators.rs lines 107-112): consumes
the exclusive cursor, returning `Iter::new(iter_mut.iteratee.as_iteratee())`. -/
def iterFromIterMut {T : Type} (c : IterMut T) : Iter T :=
  Iter.new (as_iteratee c.iteratee)

/-- Specification-side fold for the refinement claim, following the
spec's words (section 8, fold/for-each equivalence): manually advance a
cursor over the sequence and apply `f` left-to-right, threading a single
accumulator by value between steps; when the cursor is exhausted, return
the accumulator. -/
def Iter.tryFoldSpec {T A E : Type} : Iter T → A → (A → T → Except E A) → Except E A
  | ⟨.End⟩, a, _ => .ok a
  | ⟨.Cell h r⟩, a, f =>
    match f a h with
    | .error e => .error e
    | .ok a2 => Iter.tryFoldSpec ⟨r⟩ a2 f

/-! ## Helper lemmas -/

theorem CList.rCons_items {T : Type} (l : CList T) (x : T) :
    (CList.rCons l x).items = l.items ++ [x] := by
  induction l with
  | End => rfl
  | Cell h r ih => simp [CList.rCons, CList.items, ih]

theorem Iter.advanceN_new_end {T : Type} (k : Nat) :
    (Iter.new (CList.End : CList T)).advanceN k = Iter.new CList.End := by
  induction k with
  | zero => rfl
  | succ k ih => exact ih

theorem IterMut.advanceN_mut_new_end {T : Type} (k : Nat) :
    (IterMut.new (CList.End : CList T)).advanceN k = IterMut.new CList.End := by
  induction k with
  | zero => rfl
  | succ k ih => exact ih

theorem Iter.advanceN_next_get {T : Type} (l : CList T) (k : Nat) :
    ((Iter.new l).advanceN k).next.1 = l.items.get? k := by
  induction l generalizing k with
  | End =>
    rw [Iter.advanceN_new_end]
    cases k <;> rfl
  | Cell h r ih =>
    cases k with
    | zero => rfl
    | succ k =>
      have step : (Iter.new (CList.Cell h r)).advanceN (k + 1) = (Iter.new r).advanceN k := rfl
      rw [step, ih k]
      rfl

theorem IterMut.advanceN_mut_next_get {T : Type} (l : CList T) (k : Nat) :
    ((IterMut.new l).advanceN k).next.1 = l.items.get? k := by
  induction l generalizing k with
  | End =>
    rw [IterMut.advanceN_mut_new_end]
    cases k <;> rfl
  | Cell h r ih =>
    cases k with
    | zero => rfl
    | succ k =>
      have step : (IterMut.new (CList.Cell h r)).advanceN (k + 1) = (IterMut.new r).advanceN k := rfl
      rw [step, ih k]
      rfl

theorem CList.tryForEachVisits_sound {T σ E : Type} (l : CList T)
    (f : T → σ → Except E σ) (s : σ) :
    (CList.tryForEachVisits l f s).2 = CList.tryForEach l f s := by
  induction l generalizing s with
  | End => rfl
  | Cell h r ih =>
    simp only [CList.tryForEachVisits, CList.tryForEach]
    cases f h s with
    | error e => rfl
    | ok s2 => exact ih s2

theorem CList.tryForEachRef_eq_tryForEach {T σ E : Type} (l : CList T)
    (f : T → σ → Except E σ) (s : σ) :
    CList.tryForEachRef l f s = CList.tryForEach l f s := by
  induction l generalizing s with
  | End => rfl
  | Cell h r ih =>
    simp only [CList.tryForEachRef, CList.tryForEach]
    cases f h s with
    | error e => rfl
    | ok s2 => exact ih s2

theorem CList.tryForEachVisits_decomp {T E : Type} (good rest : List T) (bad : T)
    (e : E) (f : T → Unit → Except E Unit)
    (hgood : ∀ x ∈ good, f x () = .ok ())
    (hbad : f bad () = .error e) :
    CList.tryForEachVisits (CList.ofList (good ++ bad :: rest)) f ()
      = (good ++ [bad], .error e) := by
  induction good with
  | nil =>
    simp only [List.nil_append, CList.ofList, CList.tryForEachVisits, hbad]
  | cons x xs ih =>
    have hx : f x () = .ok () := hgood x (List.mem_cons_self x xs)
    have ihx := ih (fun y hy => hgood y (List.mem_cons_of_mem x hy))
    rw [List.cons_append]
    simp only [CList.ofList, CList.tryForEachVisits, hx]
    rw [ihx]
    simp

theorem CList.tryForEachMutVisits_sound {T σ E : Type} (l : CList T)
    (fm : T → σ → Except E (T × σ)) (s : σ) :
    (CList.tryForEachMutVisits l fm s).2 = CList.tryForEachMut l fm s := by
  induction l generalizing s with
  | End => rfl
  | Cell h r ih =>
    simp only [CList.tryForEachMutVisits, CList.tryForEachMut]
    cases fm h s with
    | error e => rfl
    | ok p =>
      cases p with
      | mk h2 s2 =>
        simp only
        rw [← ih s2]
        cases (CList.tryForEachMutVisits r fm s2).2 with
        | error e => rfl
        | ok q => rfl

theorem CList.tryForEachMutVisits_decomp {T E : Type} (good rest : List T) (bad : T)
    (e : E) (fm : T → Unit → Except E (T × Unit))
    (hgood : ∀ x ∈ good, ∃ y, fm x () = .ok (y, ()))
    (hbad : fm bad () = .error e) :
    (CList.tryForEachMutVisits (CList.ofList (good ++ bad :: rest)) fm ()).1
        = good ++ [bad] ∧
      (CList.tryForEachMutVisits (CList.ofList (good ++ bad :: rest)) fm ()).2
        = .error e := by
  induction good with
  | nil =>
    simp [List.nil_append, CList.ofList, CList.tryForEachMutVisits, hbad]
  | cons x xs ih =>
    obtain ⟨y, hy⟩ := hgood x (List.mem_cons_self x xs)
    obtain ⟨ih1, ih2⟩ := ih (fun z hz => hgood z (List.mem_cons_of_mem x hz))
    rw [List.cons_append]
    simp only [CList.ofList, CList.tryForEachMutVisits, hy]
    rw [ih2]
    simp [ih1]

theorem CList.tryFold_eq_spec {T A E : Type} (l : CList T) (z : A)
    (f : A → T → Except E A) :
    CList.tryFold l z f = Iter.tryFoldSpec (Iter.new l) z f := by
  induction l generalizing z with
  | End => simp [CList.tryFold, CList.tryForEach, Iter.new, Iter.tryFoldSpec]
  | Cell h r ih =>
    simp only [CList.tryFold, CList.tryForEach, Iter.new, Iter.tryFoldSpec]
    cases f z h with
    | error e => rfl
    | ok a2 =>
      have ih2 := ih a2
      simp only [Iter.new] at ih2
      dsimp only
      rw [← ih2]
      rfl

theorem CList.tryFold_ok_of_infallible {T A : Type} (l : CList T) (z : A)
    (g : A → T → A) :
    CList.tryFold l z (fun a item => (.ok (g a item) : Except Empty A))
      = .ok (List.foldl g z l.items) := by
  induction l generalizing z with
  | End => rfl
  | Cell h r ih =>
    simp only [CList.tryFold, CList.tryForEach, CList.items, List.foldl]
    exact ih (g z h)

theorem iter_iterMut_next_agree {T : Type} (l : CList T) (k : Nat) :
    ((Iter.new l).advanceN k).next.1 = ((IterMut.new l).advanceN k).next.1 := by
  rw [Iter.advanceN_next_get l k, IterMut.advanceN_mut_next_get l k]

/-! ## Claim theorems -/

/-- Claim C1: for every underlying sequence of length `n`, a cursor
(`Iter` or `IterMut`) created over it yields exactly the `n` items in
construction order — the `k`-th advance yields the `k`-th item for
`k < n` — and every advance from the `n`-th on yields `none`
("exhausted"), indefinitely; `List.get? k` is `some` of the `k`-th item
for `k < n` and `none` for every `k ≥ n`. -/
theorem c1_cursor_exhaustion {T : Type} (l : CList T) (k : Nat) :
    ((Iter.new l).advanceN k).next.1 = l.items.get? k ∧
      ((IterMut.new l).advanceN k).next.1 = l.items.get? k :=
  ⟨Iter.advanceN_next_get l k, IterMut.advanceN_mut_next_get l k⟩

/-- Claim C2: if the capability call (`head_rest_mut`) made by
`IterMut::next` aborts by unwinding, the cursor's stored slot is left
exactly as it was before the call, the abort propagates uncaught and
unconverted, and the cursor remains safe to use afterwards: a subsequent
advance behaves exactly as an advance of the untouched cursor (the slot
never holds an uninitialized or dropped value). -/
theorem c2_panic_leaves_slot_intact {T E : Type}
    (hrm : CList T → Except E (Option T × CList T)) (c : IterMut T) (e : E)
    (h : hrm c.iteratee = .error e) :
    (c.nextFallible hrm).2 = c ∧
      (c.nextFallible hrm).1 = .error e ∧
      ∀ (hrm2 : CList T → Except E (Option T × CList T)),
        ((c.nextFallible hrm).2).nextFallible hrm2 = c.nextFallible hrm2 := by
  simp [IterMut.nextFallible, h]

/-- Witness for C2 at a concrete cursor and a concrete aborting
capability call. -/
theorem c2_witness :
    ((IterMut.new (CList.Cell (1 : Nat) CList.End)).nextFallible
        (fun _ => (.error "panic" : Except String (Option Nat × CList Nat)))).2
      = IterMut.new (CList.Cell 1 CList.End) ∧
    ((IterMut.new (CList.Cell (1 : Nat) CList.End)).nextFallible
        (fun _ => (.error "panic" : Except String (Option Nat × CList Nat)))).1
      = .error "panic" :=
  ⟨(c2_panic_leaves_slot_intact (fun _ => .error "panic")
      (IterMut.new (CList.Cell 1 CList.End)) "panic" rfl).1,
    (c2_panic_leaves_slot_intact (fun _ => .error "panic")
      (IterMut.new (CList.Cell 1 CList.End)) "panic" rfl).2.1⟩

/-- Claim C3: the shared cursor obtained from an exclusive cursor by
`fork_shared` (or by the consuming `From<IterMut> for Iter` conversion)
denotes the same current position: its wrapped capability is the
original's position, its next advance yields the same item the exclusive
cursor's next advance would yield, and the whole remaining item stream
agrees at every later step, the two cursors evolving independently as
values (`fork_shared` takes `&self` and leaves the original intact). -/
theorem c3_degrade_preserves_position {T : Type} (m : IterMut T) :
    (m.fork_shared).iteratee = m.iteratee ∧
      (iterFromIterMut m).iteratee = m.iteratee ∧
      (m.fork_shared).next.1 = m.next.1 ∧
      (iterFromIterMut m).next.1 = m.next.1 ∧
      ∀ k, ((m.fork_shared).advanceN k).next.1 = (m.advanceN k).next.1 := by
  refine ⟨rfl, rfl, ?_, ?_, ?_⟩
  · exact iter_iterMut_next_agree m.iteratee 0
  · exact iter_iterMut_next_agree m.iteratee 0
  · intro k
    exact iter_iterMut_next_agree m.iteratee k

/-- Claim C4: the pointer-based `try_fold` (accumulator threaded through
a `ManuallyDrop` cell by the visitor closure) is equivalent to the naive
left fold obtained by manually advancing a cursor and applying `f`
left-to-right, for every sequence and every pure `f`; in particular the
infallible `fold` equals the left fold of `g` over the items. -/
theorem c4_fold_equivalence {T A E : Type} (l : CList T) (z : A)
    (f : A → T → Except E A) (g : A → T → A) :
    CList.tryFold l z f = Iter.tryFoldSpec (Iter.new l) z f ∧
      CList.fold l z g = List.foldl g z l.items := by
  refine ⟨CList.tryFold_eq_spec l z f, ?_⟩
  unfold CList.fold
  rw [CList.tryFold_ok_of_infallible l z g]

/-- Claim C5: a `try_for_each` (or `_ref`/`_mut`) whose visitor succeeds
on a prefix `good` and signals failure `e` on the next item `bad` (the
`k`-th item, `k = good.length + 1`) invokes the visitor on exactly `k`
items — the prefix plus the failing one, not the items of `rest` — and
returns exactly the signaled failure. -/
theorem c5_short_circuit {T E : Type} (good rest : List T) (bad : T) (e : E)
    (f : T → Unit → Except E Unit)
    (hgood : ∀ x ∈ good, f x () = .ok ())
    (hbad : f bad () = .error e) :
    (CList.tryForEachVisits (CList.ofList (good ++ bad :: rest)) f ()).1.length
        = good.length + 1 ∧
      (CList.tryForEachVisits (CList.ofList (good ++ bad :: rest)) f ()).1
        = good ++ [bad] ∧
      CList.tryForEach (CList.ofList (good ++ bad :: rest)) f () = .error e ∧
      CList.tryForEachRef (CList.ofList (good ++ bad :: rest)) f () = .error e ∧
      (CList.tryForEachMutVisits (CList.ofList (good ++ bad :: rest))
          (fun x u => match f x u with
            | .error err => .error err
            | .ok _ => .ok (x, u)) ()).1.length = good.length + 1 ∧
      CList.tryForEachMut (CList.ofList (good ++ bad :: rest))
          (fun x u => match f x u with
            | .error err => .error err
            | .ok _ => .ok (x, u)) () = .error e := by
  have hv := CList.tryForEachVisits_decomp good rest bad e f hgood hbad
  have hmgood : ∀ x ∈ good, ∃ y, (fun x u => match f x u with
      | .error err => (.error err : Except E (T × Unit))
      | .ok _ => .ok (x, u)) x () = .ok (y, ()) := by
    intro x hx
    exact ⟨x, by simp [hgood x hx]⟩
  have hmbad : (fun x u => match f x u with
      | .error err => (.error err : Except E (T × Unit))
      | .ok _ => .ok (x, u)) bad () = .error e := by simp [hbad]
  have hmv := CList.tryForEachMutVisits_decomp good rest bad e
    (fun x u => match f x u with
      | .error err => .error err
      | .ok _ => .ok (x, u)) hmgood hmbad
  refine ⟨?_, ?_, ?_, ?_, ?_, ?_⟩
  · rw [hv]
    simp
  · rw [hv]
  · rw [← CList.tryForEachVisits_sound, hv]
  · rw [CList.tryForEachRef_eq_tryForEach, ← CList.tryForEachVisits_sound, hv]
  · rw [hmv.1]
    simp
  · rw [← CList.tryForEachMutVisits_sound, hmv.2]

/-- Witness for C5: the sequence `[1, 2, 3]` with a visitor failing on
the item `2` visits exactly 2 items and returns the failure `9`. -/
theorem c5_witness :
    (CList.tryForEachVisits (CList.ofList (([1] ++ 2 :: [3]) : List Nat))
        (fun x _ => if x = 2 then (.error 9 : Except Nat Unit) else .ok ()) ()).1.length
      = [1].length + 1 ∧
    CList.tryForEach (CList.ofList (([1] ++ 2 :: [3]) : List Nat))
        (fun x _ => if x = 2 then (.error 9 : Except Nat Unit) else .ok ()) ()
      = .error 9 := by
  have h := c5_short_circuit [1] [3] 2 9
    (fun x _ => if x = 2 then .error 9 else .ok ())
    (by intro x hx; fin_cases hx; rfl) (by rfl)
  exact ⟨h.1, h.2.2.1⟩

/-- Claim C6 counterexample evidence: the `Iterator` impls for `Iter` and
`IterMut` override only `next`, so the cursor's `size_hint` is Rust's
provided default `(0, None)` and does not equal the `size_hint` a
conforming wrapped capability reports at the current position (here a
1-item sequence reporting `(1, Some(1))`), contradicting the doc comment
on `Iteratee::size_hint` (src/lib.rs line 28). -/
theorem c6_size_hint_not_delegated :
    (Iter.new (CList.Cell (1 : Nat) CList.End)).size_hint = (0, none) ∧
      iteratee_size_hint (CList.Cell (1 : Nat) CList.End) = (1, some 1) ∧
      (Iter.new (CList.Cell (1 : Nat) CList.End)).size_hint ≠
        iteratee_size_hint (CList.Cell (1 : Nat) CList.End) := by
  refine ⟨rfl, rfl, ?_⟩
  decide

/-- Claim C7: over the terminator-only sequence `End`, every
`try_for_each*` succeeds with zero visitor invocations, the infallible
`for_each*` wrappers leave the visitor state untouched, `fold` returns
the initial accumulator unchanged (`try_fold` returns it wrapped in
success), and the very first advance of either cursor reports
"exhausted". -/
theorem c7_empty_sequence {T σ A E : Type} (f : T → σ → Except E σ)
    (f2 : T → σ → σ) (fm : T → σ → T × σ) (s : σ) (z : A) (g : A → T → A)
    (tf : A → T → Except E A) :
    (CList.tryForEachVisits (CList.End : CList T) f s).1 = [] ∧
      CList.tryForEach (CList.End : CList T) f s = .ok s ∧
      CList.tryForEachRef (CList.End : CList T) f s = .ok s ∧
      CList.forEach (CList.End : CList T) f2 s = s ∧
      CList.forEachRef (CList.End : CList T) f2 s = s ∧
      CList.forEachMut (CList.End : CList T) fm s = (CList.End, s) ∧
      CList.fold (CList.End : CList T) z g = z ∧
      CList.tryFold (CList.End : CList T) z tf = .ok z ∧
      (Iter.new (CList.End : CList T)).next.1 = none ∧
      (IterMut.new (CList.End : CList T)).next.1 = none :=
  ⟨rfl, rfl, rfl, rfl, rfl, rfl, rfl, rfl, rfl, rfl⟩

/-- Claim C8: on the 3-cell list holding `[1, 2, 3]`, `for_each_mut`
with an incrementing visitor leaves the sequence holding `[2, 3, 4]`; a
subsequent shared traversal yields `2, 3, 4` in that order; and `fold`
with addition from `0` over the result returns `9`. -/
theorem c8_concrete_scenario :
    (CList.forEachMut (CList.ofList ([1, 2, 3] : List Nat))
          (fun x u => (x + 1, u)) ()).1
        = CList.ofList [2, 3, 4] ∧
      Iter.toList (Iter.new ((CList.forEachMut (CList.ofList ([1, 2, 3] : List Nat))
          (fun x u => (x + 1, u)) ()).1)) = [2, 3, 4] ∧
      CList.fold ((CList.forEachMut (CList.ofList ([1, 2, 3] : List Nat))
          (fun x u => (x + 1, u)) ()).1) 0 (fun acc x => acc + x) = 9 :=
  ⟨rfl, rfl, rfl⟩

/-- Claim C9: `cons` prepends — `l.cons(x)` is the cell with head `x`
and rest `l`, so its items are `x` followed by the items of `l` — while
`r_cons` appends: `End.r_cons(x)` is the one-item list holding `x`,
`(List { head: h, rest: r }).r_cons(x)` keeps head `h` and recurses into
the rest, and the items of `l.r_cons(x)` are the items of `l` followed
by `x`. -/
theorem c9_cons_rcons {T : Type} (l r : CList T) (x h : T) :
    CList.cons l x = CList.Cell x l ∧
      (CList.cons l x).items = x :: l.items ∧
      CList.rCons (CList.End : CList T) x = CList.Cell x CList.End ∧
      CList.rCons (CList.Cell h r) x = CList.Cell h (CList.rCons r x) ∧
      (CList.rCons l x).items = l.items ++ [x] :=
  ⟨rfl, rfl, rfl, rfl, CList.rCons_items l x⟩

/-- Claim C10: the infallible wrappers `for_each`, `for_each_ref`,
`for_each_mut`, `fold`, `fold_ref` and `fold_mut` never fail at their
internal `unwrap`: with `Infallible` (`Empty`) as error type, the
wrapped `try_` operation always returns success — namely success of
exactly the wrapper's result — for every sequence and every visitor, so
the `unwrap` error branch is unreachable. -/
theorem c10_infallible_wrappers_never_fail {T σ A : Type} (l : CList T)
    (f : T → σ → σ) (fm : T → σ → T × σ) (s : σ) (z : A) (g : A → T → A)
    (gm : A → T → A × T) :
    CList.tryForEach l (fun item st => (.ok (f item st) : Except Empty σ)) s
        = .ok (CList.forEach l f s) ∧
      CList.tryForEachRef l (fun item st => (.ok (f item st) : Except Empty σ)) s
        = .ok (CList.forEachRef l f s) ∧
      CList.tryForEachMut l (fun item st => (.ok (fm item st) : Except Empty (T × σ))) s
        = .ok (CList.forEachMut l fm s) ∧
      CList.tryFold l z (fun a item => (.ok (g a item) : Except Empty A))
        = .ok (CList.fold l z g) ∧
      CList.tryFoldRef l z (fun a item => (.ok (g a item) : Except Empty A))
        = .ok (CList.foldRef l z g) ∧
      CList.tryFoldMut l z (fun a item => (.ok (gm a item) : Except Empty (A × T)))
        = .ok (CList.foldMut l z gm) := by
  refine ⟨?_, ?_, ?_, ?_, ?_, ?_⟩
  · unfold CList.forEach
    cases hr : CList.tryForEach l (fun item st => (.ok (f item st) : Except Empty σ)) s with
    | ok v => rfl
    | error e => exact e.elim
  · unfold CList.forEachRef
    cases hr : CList.tryForEachRef l (fun item st => (.ok (f item st) : Except Empty σ)) s with
    | ok v => rfl
    | error e => exact e.elim
  · unfold CList.forEachMut
    cases hr : CList.tryForEachMut l
        (fun item st => (.ok (fm item st) : Except Empty (T × σ))) s with
    | ok v => rfl
    | error e => exact e.elim
  · unfold CList.fold
    cases hr : CList.tryFold l z (fun a item => (.ok (g a item) : Except Empty A)) with
    | ok v => rfl
    | error e => exact e.elim
  · unfold CList.foldRef
    cases hr : CList.tryFoldRef l z (fun a item => (.ok (g a item) : Except Empty A)) with
    | ok v => rfl
    | error e => exact e.elim
  · unfold CList.foldMut
    cases hr : CList.tryFoldMut l z
        (fun a item => (.ok (gm a item) : Except Empty (A × T))) with
    | ok v => rfl
    | error e => exact e.elim
